import Mathlib

/-!
Shallow embedding of the task-manager application state logic
(source: src/src/App.tsx). Pure list-manipulating functions of the
component are translated directly; browser inputs (localStorage reads,
matchMedia, crypto.randomUUID, Date.now) become explicit parameters.
-/

namespace AiTodo

/-- The Todo record (source: type Todo in App.tsx). `createdAt` is
milliseconds since epoch, a natural number here. -/
structure Todo where
  id : String
  text : String
  done : Bool
  createdAt : Nat
deriving DecidableEq, Repr

/-- The three-way filter enum (source: useState of filter in App.tsx). -/
inductive TaskFilter where
  | all
  | active
  | completed
deriving DecidableEq, Repr

/-- The theme enum (source: the string union type of theme in App.tsx). -/
inductive Theme where
  | dark
  | light
deriving DecidableEq, Repr

/-- A JSON value, modelling what the host JSON.parse can return. -/
inductive JValue where
  | jnull
  | jbool (b : Bool)
  | jnum (n : Int)
  | jstr (s : String)
  | jarr (elems : List JValue)
  | jobj (fields : List (String × JValue))

/-- Array.isArray on a parsed JSON value. -/
def JValue.isArr : JValue → Bool
  | .jarr _ => true
  | _ => false

/-- Embedding of loadInitialTodos (App.tsx lines 13-24).
`windowDefined` models the typeof-window guard; `raw` is what
localStorage.getItem returns (none for null); `parse` is the host
JSON.parse, returning none when it throws. The source checks `!raw`
(null or empty string), then whether the parsed value is an array, and
otherwise returns []. The function is total: no exception escapes. -/
def loadInitialTodos (windowDefined : Bool) (raw : Option String)
    (parse : String → Option JValue) : List JValue :=
  if windowDefined = false then []
  else
    match raw with
    | none => []
    | some s =>
      if s = "" then []
      else
        match parse s with
        | none => []
        | some v =>
          match v with
          | .jarr elems => elems
          | _ => []

/-- Embedding of loadInitialTheme (App.tsx lines 26-33).
`stored` is localStorage.getItem of the theme key; `matchMediaMatches`
is the result of the optional-chained matchMedia call: none when
window.matchMedia is unavailable (the whole chain is undefined, which
is falsy), some b when available with matches == b. -/
def loadInitialTheme (windowDefined : Bool) (stored : Option String)
    (matchMediaMatches : Option Bool) : Theme :=
  if windowDefined = false then .dark
  else if stored = some "dark" then .dark
  else if stored = some "light" then .light
  else
    match matchMediaMatches with
    | some true => .dark
    | some false => .light
    | none => .light

/-- Embedding of the host String.prototype.trim used by handleAddTodo:
drop leading and trailing whitespace characters (whitespace modelled by
Char.isWhitespace). -/
def jsTrim (s : String) : String :=
  String.mk (((s.data.dropWhile Char.isWhitespace).reverse.dropWhile Char.isWhitespace).reverse)

/-- Embedding of handleAddTodo (App.tsx lines 73-85). The fresh id from
crypto.randomUUID and the Date.now timestamp are parameters; `prev` is
the previous todos state. `!text` on a string is true exactly for "". -/
def handleAddTodo (input : String) (freshId : String) (now : Nat)
    (prev : List Todo) : List Todo :=
  let text := jsTrim input
  if text = "" then prev
  else { id := freshId, text := text, done := false, createdAt := now } :: prev

/-- Embedding of toggleTodo (App.tsx lines 87-93): map over the list,
flipping done on every element whose id matches. -/
def toggleTodo (id : String) (prev : List Todo) : List Todo :=
  prev.map (fun todo => if todo.id = id then { todo with done := !todo.done } else todo)

/-- Embedding of deleteTodo (App.tsx lines 95-97): keep the elements
whose id differs. -/
def deleteTodo (id : String) (prev : List Todo) : List Todo :=
  prev.filter (fun todo => todo.id ≠ id)

/-- Embedding of clearCompleted (App.tsx lines 99-101): keep the
not-done elements. -/
def clearCompleted (prev : List Todo) : List Todo :=
  prev.filter (fun t => !t.done)

/-- Embedding of the filteredTodos memo (App.tsx lines 57-66). -/
def filteredTodos (filter : TaskFilter) (todos : List Todo) : List Todo :=
  match filter with
  | .active => todos.filter (fun t => !t.done)
  | .completed => todos.filter (fun t => t.done)
  | .all => todos

/-- Embedding of the remainingCount memo (App.tsx lines 68-71). -/
def remainingCount (todos : List Todo) : Nat :=
  (todos.filter (fun t => !t.done)).length

/-- A user action on the collection that is a toggle or a delete,
for stating the order invariant over sequences of operations. -/
inductive Op where
  | toggle (id : String)
  | del (id : String)
deriving DecidableEq, Repr

/-- The id an operation refers to. -/
def Op.opId : Op → String
  | .toggle id => id
  | .del id => id

/-- Apply one operation to the collection. -/
def applyOp (op : Op) (todos : List Todo) : List Todo :=
  match op with
  | .toggle id => toggleTodo id todos
  | .del id => deleteTodo id todos

/-- Apply a sequence of operations left to right. -/
def applyOps (ops : List Op) (todos : List Todo) : List Todo :=
  ops.foldl (fun acc op => applyOp op acc) todos

/-- C1: addTask on input whose trimmed text is empty leaves the
collection unchanged; otherwise it prepends exactly one new Task whose
text is the trimmed input, done is false, createdAt is the current
time and whose id is the freshly generated one, increasing the length
by one. -/
theorem handleAddTodo_spec (input freshId : String) (now : Nat) (prev : List Todo) :
    (jsTrim input = "" → handleAddTodo input freshId now prev = prev) ∧
    (jsTrim input ≠ "" →
      handleAddTodo input freshId now prev =
        { id := freshId, text := jsTrim input, done := false, createdAt := now } :: prev ∧
      (handleAddTodo input freshId now prev).length = prev.length + 1) := by
  constructor
  · intro h
    simp [handleAddTodo, h]
  · intro h
    constructor
    · simp [handleAddTodo, h]
    · simp [handleAddTodo, h]

/-- C1 witness: a whitespace-only add is a no-op and a real add
prepends the trimmed task. -/
theorem handleAddTodo_spec_witness :
    handleAddTodo "   " "id0" 3 [] = [] ∧
    handleAddTodo " milk " "id1" 5 [] =
      [{ id := "id1", text := jsTrim " milk ", done := false, createdAt := 5 }] :=
  ⟨(handleAddTodo_spec "   " "id0" 3 []).1 (by decide),
   ((handleAddTodo_spec " milk " "id1" 5 []).2 (by decide)).1⟩

/-- C2 counterexample: with the window present, no persisted theme and
the ambient preference signal unavailable, the code yields light, while
the claim says the theme then defaults to dark. -/
theorem loadInitialTheme_counterexample :
    loadInitialTheme true none none = Theme.light ∧
    loadInitialTheme true none none ≠ Theme.dark := by
  constructor
  · rfl
  · intro h
    cases h

/-- C2 (amended): when no window object exists the theme is dark;
otherwise a persisted value equal to one of the two valid enum values
is used; otherwise, when the ambient preference signal is available
the theme follows it; otherwise the theme defaults to light. -/
theorem loadInitialTheme_spec (stored : Option String) (mm : Option Bool) :
    loadInitialTheme false stored mm = Theme.dark ∧
    (stored = some "dark" → loadInitialTheme true stored mm = Theme.dark) ∧
    (stored = some "light" → loadInitialTheme true stored mm = Theme.light) ∧
    (stored ≠ some "dark" → stored ≠ some "light" →
      (∀ b, mm = some b →
        loadInitialTheme true stored mm = if b then Theme.dark else Theme.light) ∧
      (mm = none → loadInitialTheme true stored mm = Theme.light)) := by
  refine ⟨rfl, ?_, ?_, ?_⟩
  · intro h
    simp [loadInitialTheme, h]
  · intro h
    simp [loadInitialTheme, h]
  · intro h1 h2
    constructor
    · intro b hb
      cases b <;> simp [loadInitialTheme, h1, h2, hb]
    · intro hmm
      simp [loadInitialTheme, h1, h2, hmm]

/-- C2 witness: an invalid persisted value with an available
dark-preferring signal yields dark. -/
theorem loadInitialTheme_spec_witness :
    loadInitialTheme true (some "junk") (some true) = Theme.dark :=
  ((loadInitialTheme_spec (some "junk") (some true)).2.2.2 (by decide) (by decide)).1
    true rfl

/-- C3: whenever the stored value is absent, fails to parse as JSON, or
parses to a non-array, the initial collection is the empty list; the
embedded function is total, so no exception reaches the caller. -/
theorem loadInitialTodos_safe (w : Bool) (raw : Option String)
    (parse : String → Option JValue)
    (h : raw = none ∨ (∃ s, raw = some s ∧ parse s = none) ∨
         (∃ s v, raw = some s ∧ parse s = some v ∧ v.isArr = false)) :
    loadInitialTodos w raw parse = [] := by
  rcases h with h | ⟨s, hs, hp⟩ | ⟨s, v, hs, hp, hv⟩
  · subst h
    cases w <;> simp [loadInitialTodos]
  · subst hs
    cases w
    · simp [loadInitialTodos]
    · by_cases hse : s = "" <;> simp [loadInitialTodos, hse, hp]
  · subst hs
    cases w
    · simp [loadInitialTodos]
    · by_cases hse : s = ""
      · simp [loadInitialTodos, hse]
      · cases v <;> simp_all [loadInitialTodos, JValue.isArr, hse, hp]

/-- C3 witness: a stored value parsing to a JSON object (not an array)
rehydrates to the empty collection. -/
theorem loadInitialTodos_safe_witness :
    loadInitialTodos true (some "oops") (fun _ => some (JValue.jobj [])) = [] :=
  loadInitialTodos_safe true (some "oops") (fun _ => some (JValue.jobj []))
    (Or.inr (Or.inr ⟨"oops", JValue.jobj [], rfl, rfl, rfl⟩))

/-- C4: the filtered view is the full collection for all, exactly the
not-done tasks for active, exactly the done tasks for completed, and in
every case an ordered subsequence of the underlying collection. -/
theorem filteredTodos_spec (todos : List Todo) :
    filteredTodos .all todos = todos ∧
    (∀ t, t ∈ filteredTodos .active todos ↔ t ∈ todos ∧ t.done = false) ∧
    (∀ t, t ∈ filteredTodos .completed todos ↔ t ∈ todos ∧ t.done = true) ∧
    (∀ f, (filteredTodos f todos).Sublist todos) := by
  refine ⟨rfl, ?_, ?_, ?_⟩
  · intro t
    simp [filteredTodos]
  · intro t
    simp [filteredTodos]
  · intro f
    cases f
    · exact List.Sublist.refl todos
    · exact List.filter_sublist todos
    · exact List.filter_sublist todos

/-- C5: remainingCount equals the number of tasks with done == false,
and being a pure function of the collection it is recomputed after a
toggle: it equals that same count on the toggled collection. -/
theorem remainingCount_spec (todos : List Todo) :
    remainingCount todos = todos.countP (fun t => t.done = false) ∧
    (∀ id, remainingCount (toggleTodo id todos) =
      (toggleTodo id todos).countP (fun t => t.done = false)) := by
  have key : ∀ ts : List Todo, remainingCount ts = ts.countP (fun t => t.done = false) := by
    intro ts
    unfold remainingCount
    rw [List.countP_eq_length_filter]
    congr 1
    apply List.filter_congr
    intro t _
    cases h : t.done <;> simp [h]
  exact ⟨key todos, fun id => key (toggleTodo id todos)⟩

/-- C6: clearCompleted keeps exactly the tasks with done == false, as an
in-order subsequence; applying the completed filter right after yields
the empty sequence. -/
theorem clearCompleted_spec (todos : List Todo) :
    (∀ t, t ∈ clearCompleted todos ↔ t ∈ todos ∧ t.done = false) ∧
    (clearCompleted todos).Sublist todos ∧
    filteredTodos .completed (clearCompleted todos) = [] := by
  refine ⟨?_, List.filter_sublist todos, ?_⟩
  · intro t
    simp [clearCompleted]
  · simp only [filteredTodos, clearCompleted]
    rw [List.filter_eq_nil_iff]
    intro t ht
    have := List.of_mem_filter ht
    simp_all

/-- C7: toggling or deleting an id that matches no task in the
collection leaves the collection unchanged. -/
theorem missing_id_noop (id : String) (todos : List Todo)
    (h : ∀ t ∈ todos, t.id ≠ id) :
    toggleTodo id todos = todos ∧ deleteTodo id todos = todos := by
  constructor
  · unfold toggleTodo
    conv_rhs => rw [← List.map_id todos]
    apply List.map_congr_left
    intro t ht
    simp [h t ht]
  · unfold deleteTodo
    apply List.filter_eq_self.mpr
    intro t ht
    simp [h t ht]

/-- C7 witness: toggle and delete with an absent id are no-ops on a
concrete collection. -/
theorem missing_id_noop_witness :
    toggleTodo "b" [Todo.mk "a" "x" false 0] = [Todo.mk "a" "x" false 0] ∧
    deleteTodo "b" [Todo.mk "a" "x" false 0] = [Todo.mk "a" "x" false 0] :=
  missing_id_noop "b" [Todo.mk "a" "x" false 0] (by decide)

/-- C8: toggling changes at most the done field: at every position the
id, text and createdAt are unchanged, a task whose id does not match is
entirely unchanged, and the length (hence the order) is preserved. -/
theorem toggleTodo_frame (id : String) (todos : List Todo) :
    (toggleTodo id todos).length = todos.length ∧
    ∀ i (h : i < todos.length) (h' : i < (toggleTodo id todos).length),
      (toggleTodo id todos)[i].id = todos[i].id ∧
      (toggleTodo id todos)[i].text = todos[i].text ∧
      (toggleTodo id todos)[i].createdAt = todos[i].createdAt ∧
      (todos[i].id ≠ id → (toggleTodo id todos)[i] = todos[i]) := by
  constructor
  · simp [toggleTodo]
  · intro i h h'
    simp only [toggleTodo, List.getElem_map]
    by_cases hid : todos[i].id = id
    · simp [hid]
    · simp [hid]

/-- C8 witness: on a concrete collection, the non-matching task is
untouched and the matching task keeps its id, text and createdAt. -/
theorem toggleTodo_frame_witness :
    (toggleTodo "a" [Todo.mk "a" "x" false 0, Todo.mk "b" "y" true 1])[1] =
      Todo.mk "b" "y" true 1 ∧
    (toggleTodo "a" [Todo.mk "a" "x" false 0, Todo.mk "b" "y" true 1])[0].text =
      (([Todo.mk "a" "x" false 0, Todo.mk "b" "y" true 1] : List Todo)[0]).text :=
  ⟨((toggleTodo_frame "a" [Todo.mk "a" "x" false 0, Todo.mk "b" "y" true 1]).2
      1 (by decide) (by decide)).2.2.2 (by decide),
   ((toggleTodo_frame "a" [Todo.mk "a" "x" false 0, Todo.mk "b" "y" true 1]).2
      0 (by decide) (by decide)).2.1⟩

/-- Applying one toggle or delete whose id differs from the head task
keeps that head in place unchanged. -/
theorem applyOp_cons (op : Op) (x : Todo) (ts : List Todo) (hne : op.opId ≠ x.id) :
    applyOp op (x :: ts) = x :: applyOp op ts := by
  cases op with
  | toggle id =>
    have hx : x.id ≠ id := fun hEq => hne (hEq.symm)
    simp [applyOp, toggleTodo, Op.opId, hx]
  | del id =>
    have hx : x.id ≠ id := fun hEq => hne (hEq.symm)
    simp [applyOp, deleteTodo, Op.opId, hx]

/-- Applying any sequence of toggles and deletes whose ids all differ
from the head task keeps that head in place unchanged. -/
theorem applyOps_cons (ops : List Op) (x : Todo) :
    ∀ ts, (∀ op ∈ ops, op.opId ≠ x.id) →
      applyOps ops (x :: ts) = x :: applyOps ops ts := by
  induction ops with
  | nil =>
    intro ts _
    rfl
  | cons op ops ih =>
    intro ts hops
    simp only [applyOps, List.foldl_cons]
    rw [applyOp_cons op x ts (hops op (List.mem_cons_self op ops))]
    exact ih (applyOp op ts) (fun o ho => hops o (List.mem_cons_of_mem op ho))

/-- C9: after a successful add, any sequence of toggles and deletes
whose ids do not refer to the new task leaves that task, unchanged, at
the front — the position consistent with newest-first insertion — while
the rest of the collection is exactly the operations applied to the
previous collection. -/
theorem newest_first_invariant (input xId : String) (now : Nat) (todos : List Todo)
    (ops : List Op) (hne : jsTrim input ≠ "")
    (hops : ∀ op ∈ ops, op.opId ≠ xId) :
    applyOps ops (handleAddTodo input xId now todos) =
      Todo.mk xId (jsTrim input) false now :: applyOps ops todos := by
  have hx : handleAddTodo input xId now todos =
      Todo.mk xId (jsTrim input) false now :: todos := by
    simp [handleAddTodo, hne]
  rw [hx]
  exact applyOps_cons ops (Todo.mk xId (jsTrim input) false now) todos hops

/-- C9 witness: add a task, then toggle and delete another id; the new
task is still at the front and unchanged. -/
theorem newest_first_invariant_witness :
    applyOps [Op.toggle "y", Op.del "y"]
        (handleAddTodo " a " "x1" 1 [Todo.mk "y" "b" false 0]) =
      Todo.mk "x1" (jsTrim " a ") false 1 ::
        applyOps [Op.toggle "y", Op.del "y"] [Todo.mk "y" "b" false 0] :=
  newest_first_invariant " a " "x1" 1 [Todo.mk "y" "b" false 0]
    [Op.toggle "y", Op.del "y"] (by decide) (by decide)

/-- C10: toggleTodo flips the done field at every position whose id
matches, so with duplicate ids every matching task is flipped, not
exactly one. -/
theorem toggleTodo_flips_all_matching (id : String) (todos : List Todo) :
    ∀ i (h : i < todos.length) (h' : i < (toggleTodo id todos).length),
      todos[i].id = id → (toggleTodo id todos)[i].done = !todos[i].done := by
  intro i h h' hid
  simp only [toggleTodo, List.getElem_map]
  simp [hid]

/-- C10 witness: with two tasks sharing an id, toggling that id flips
both of them. -/
theorem toggleTodo_flips_all_matching_witness :
    (toggleTodo "a" [Todo.mk "a" "x" false 0, Todo.mk "a" "y" false 1])[0].done = !false ∧
    (toggleTodo "a" [Todo.mk "a" "x" false 0, Todo.mk "a" "y" false 1])[1].done = !false :=
  ⟨toggleTodo_flips_all_matching "a" [Todo.mk "a" "x" false 0, Todo.mk "a" "y" false 1]
      0 (by decide) (by decide) (by decide),
   toggleTodo_flips_all_matching "a" [Todo.mk "a" "x" false 0, Todo.mk "a" "y" false 1]
      1 (by decide) (by decide) (by decide)⟩

end AiTodo
